import Mathlib

/-!
Verification development for the two BOM command-line utilities
(utf-8+bom.py and utf-8-bom.py).

Files are modelled as lists of byte values (Nat below 256).  Python's
text-mode I/O is modelled faithfully: reading a file in mode r with
encoding utf-8 performs a strict UTF-8 decode followed by universal
newline translation (CRLF and lone CR both become LF); writing in mode
w translates LF to os.linesep, which on a POSIX host is LF again, so
the write-side translation is the identity and is not represented.
The encoding utf-8-sig strips one leading BOM on read and prepends the
BOM on write.

I/O failures are modelled by explicit flags on the file value:
openFails makes every binary open (the BOM probe and the text
classifier) raise, readFails makes the text-mode open of step 3 raise,
and writeFails makes the rewrite step raise.  The bytes left on disk
after a failed write are not constrained by the code, so they are an
arbitrary field of the file value.
-/

/-- the UTF-8 byte-order mark, codecs.BOM_UTF8 -/
def BOM_UTF8 : List Nat := [239, 187, 191]

/-- a file on disk together with the I/O failure behaviour of its handle -/
structure FsFile where
  content : List Nat
  openFails : Bool
  readFails : Bool
  writeFails : Bool
  leftoverBytes : List Nat
  deriving DecidableEq

/-- a file whose reads and writes all succeed -/
def mkFile (bs : List Nat) : FsFile :=
  { content := bs, openFails := false, readFails := false,
    writeFails := false, leftoverBytes := bs }

/-- has_utf8_bom: open binary, read up to 3 bytes, compare with the BOM;
any exception yields false -/
def has_utf8_bom (f : FsFile) : Bool :=
  if f.openFails then false
  else f.content.take 3 == BOM_UTF8

/-- is_text_file: open binary, read up to 1024 bytes, report false when a
zero byte occurs in that chunk; any exception yields false -/
def is_text_file (f : FsFile) : Bool :=
  if f.openFails then false
  else !((f.content.take 1024).contains 0)

/-- decodeUtf8 bs: Python's strict utf-8 decoder on a whole byte string,
returning the list of code points, or none on a UnicodeDecodeError.
Accepts exactly the RFC 3629 forms: C2-DF lead a 2-byte sequence,
E0 requires a continuation in A0-BF, ED requires one in 80-9F
(excluding surrogates), other E1-EF require 80-BF, F0 requires 90-BF,
F4 requires 80-8F, F1-F3 require 80-BF. -/
def decodeUtf8 : List Nat → Option (List Nat)
  | [] => some []
  | b :: bs =>
    if b < 128 then (decodeUtf8 bs).map (fun cs => b :: cs)
    else if b < 194 then none
    else if b < 224 then
      match bs with
      | b1 :: bs1 =>
        if 128 ≤ b1 ∧ b1 < 192 then
          (decodeUtf8 bs1).map (fun cs => ((b - 192) * 64 + (b1 - 128)) :: cs)
        else none
      | [] => none
    else if b < 240 then
      match bs with
      | b1 :: b2 :: bs2 =>
        if (if b = 224 then 160 ≤ b1 ∧ b1 < 192
            else if b = 237 then 128 ≤ b1 ∧ b1 < 160
            else 128 ≤ b1 ∧ b1 < 192) ∧ (128 ≤ b2 ∧ b2 < 192) then
          (decodeUtf8 bs2).map
            (fun cs => ((b - 224) * 4096 + (b1 - 128) * 64 + (b2 - 128)) :: cs)
        else none
      | _ => none
    else if b < 245 then
      match bs with
      | b1 :: b2 :: b3 :: bs3 =>
        if (if b = 240 then 144 ≤ b1 ∧ b1 < 192
            else if b = 244 then 128 ≤ b1 ∧ b1 < 144
            else 128 ≤ b1 ∧ b1 < 192) ∧ (128 ≤ b2 ∧ b2 < 192)
            ∧ (128 ≤ b3 ∧ b3 < 192) then
          (decodeUtf8 bs3).map
            (fun cs => ((b - 240) * 262144 + (b1 - 128) * 4096
                          + (b2 - 128) * 64 + (b3 - 128)) :: cs)
        else none
      | _ => none
    else none

/-- encodeChar c: the UTF-8 byte sequence of one code point -/
def encodeChar (c : Nat) : List Nat :=
  if c < 128 then [c]
  else if c < 2048 then [192 + c / 64, 128 + c % 64]
  else if c < 65536 then [224 + c / 4096, 128 + c / 64 % 64, 128 + c % 64]
  else [240 + c / 262144, 128 + c / 4096 % 64, 128 + c / 64 % 64, 128 + c % 64]

/-- encodeUtf8: Python's utf-8 encoder on a list of code points -/
def encodeUtf8 : List Nat → List Nat
  | [] => []
  | c :: cs => encodeChar c ++ encodeUtf8 cs

/-- decodeUtf8Sig bs: Python's utf-8-sig decoder, stripping one leading
BOM when present -/
def decodeUtf8Sig (bs : List Nat) : Option (List Nat) :=
  if bs.take 3 = BOM_UTF8 then decodeUtf8 (bs.drop 3) else decodeUtf8 bs

/-- translateNewlines: universal newline translation applied by Python
text-mode reads with newline=None: CRLF becomes LF and a lone CR
becomes LF (13 is CR, 10 is LF) -/
def translateNewlines : List Nat → List Nat
  | [] => []
  | [c] => if c = 13 then [10] else [c]
  | c :: c2 :: rest =>
    if c = 13 then
      if c2 = 10 then 10 :: translateNewlines rest
      else 10 :: translateNewlines (c2 :: rest)
    else c :: translateNewlines (c2 :: rest)

/-- the result tags returned by the two per-file procedures -/
inductive Outcome where
  | bom_added
  | already_has_bom
  | not_text_file
  | not_utf8
  | dry_run
  | error
  | bom_removed
  | no_bom
  deriving DecidableEq

/-- add_bom_to_file: the per-file Add-BOM procedure.  Returns the pair
the Python function returns (success flag and outcome tag) together
with the bytes the file holds afterwards. -/
def add_bom_to_file (f : FsFile) (dry_run : Bool) : (Bool × Outcome) × List Nat :=
  if has_utf8_bom f then ((true, .already_has_bom), f.content)
  else if !(is_text_file f) then ((true, .not_text_file), f.content)
  else if f.readFails then ((false, .error), f.content)
  else
    match decodeUtf8 f.content with
    | none => ((false, .not_utf8), f.content)
    | some cs =>
      if dry_run then ((true, .dry_run), f.content)
      else if f.writeFails then ((false, .error), f.leftoverBytes)
      else ((true, .bom_added), BOM_UTF8 ++ encodeUtf8 (translateNewlines cs))

/-- remove_bom_from_file: the per-file Remove-BOM procedure -/
def remove_bom_from_file (f : FsFile) (dry_run : Bool) : (Bool × Outcome) × List Nat :=
  if !(has_utf8_bom f) then ((true, .no_bom), f.content)
  else if !(is_text_file f) then ((true, .not_text_file), f.content)
  else if f.readFails then ((false, .error), f.content)
  else
    match decodeUtf8Sig f.content with
    | none => ((false, .not_utf8), f.content)
    | some cs =>
      if dry_run then ((true, .dry_run), f.content)
      else if f.writeFails then ((false, .error), f.leftoverBytes)
      else ((true, .bom_removed), encodeUtf8 (translateNewlines cs))

/-- a candidate file produced by the glob enumeration of main: its path
components (pathlib parts) and the file itself -/
structure Candidate where
  parts : List String
  file : FsFile
  deriving DecidableEq

/-- isExcluded: the exclusion test of main, true when some excluded
directory name equals some path component -/
def isExcluded (excludeDirs : List String) (parts : List String) : Bool :=
  excludeDirs.any (fun d => parts.contains d)

/-- the stats dictionary of add-mode main -/
structure AddStats where
  total_found : Nat
  bom_added : Nat
  already_has_bom : Nat
  not_text_file : Nat
  not_utf8 : Nat
  errors : Nat
  deriving DecidableEq

/-- the all-zero initial stats of add-mode main -/
def initAddStats : AddStats :=
  { total_found := 0, bom_added := 0, already_has_bom := 0,
    not_text_file := 0, not_utf8 := 0, errors := 0 }

/-- bumpAdd: the counter-update chain of add-mode main.  The dry_run tag
matches no branch, so it increments nothing. -/
def bumpAdd (st : AddStats) (oc : Outcome) : AddStats :=
  match oc with
  | .bom_added => { st with bom_added := st.bom_added + 1 }
  | .already_has_bom => { st with already_has_bom := st.already_has_bom + 1 }
  | .not_text_file => { st with not_text_file := st.not_text_file + 1 }
  | .not_utf8 => { st with not_utf8 := st.not_utf8 + 1 }
  | .error => { st with errors := st.errors + 1 }
  | _ => st

/-- the stats dictionary of remove-mode main -/
structure RemoveStats where
  total_checked : Nat
  bom_removed : Nat
  no_bom : Nat
  not_text_file : Nat
  not_utf8 : Nat
  errors : Nat
  deriving DecidableEq

/-- the all-zero initial stats of remove-mode main -/
def initRemoveStats : RemoveStats :=
  { total_checked := 0, bom_removed := 0, no_bom := 0,
    not_text_file := 0, not_utf8 := 0, errors := 0 }

/-- bumpRemove: the counter-update chain of remove-mode main; again the
dry_run tag matches no branch -/
def bumpRemove (st : RemoveStats) (oc : Outcome) : RemoveStats :=
  match oc with
  | .bom_removed => { st with bom_removed := st.bom_removed + 1 }
  | .no_bom => { st with no_bom := st.no_bom + 1 }
  | .not_text_file => { st with not_text_file := st.not_text_file + 1 }
  | .not_utf8 => { st with not_utf8 := st.not_utf8 + 1 }
  | .error => { st with errors := st.errors + 1 }
  | _ => st

/-- runAddAux: the file loop of add-mode main over the enumerated
candidates, threading the stats accumulator and returning with it the
bytes each candidate holds afterwards (skipped candidates keep their
bytes) -/
def runAddAux (ex : List String) (dry : Bool) (st : AddStats) :
    List Candidate → AddStats × List (List Nat)
  | [] => (st, [])
  | c :: cs =>
    if isExcluded ex c.parts then
      let r := runAddAux ex dry st cs
      (r.1, c.file.content :: r.2)
    else
      let st1 := { st with total_found := st.total_found + 1 }
      let pr := add_bom_to_file c.file dry
      let r := runAddAux ex dry (bumpAdd st1 pr.1.2) cs
      (r.1, pr.2 :: r.2)

/-- runAdd: add-mode main from the zero stats -/
def runAdd (ex : List String) (dry : Bool) (cs : List Candidate) :
    AddStats × List (List Nat) :=
  runAddAux ex dry initAddStats cs

/-- runRemoveAux: the file loop of remove-mode main -/
def runRemoveAux (ex : List String) (dry : Bool) (st : RemoveStats) :
    List Candidate → RemoveStats × List (List Nat)
  | [] => (st, [])
  | c :: cs =>
    if isExcluded ex c.parts then
      let r := runRemoveAux ex dry st cs
      (r.1, c.file.content :: r.2)
    else
      let st1 := { st with total_checked := st.total_checked + 1 }
      let pr := remove_bom_from_file c.file dry
      let r := runRemoveAux ex dry (bumpRemove st1 pr.1.2) cs
      (r.1, pr.2 :: r.2)

/-- runRemove: remove-mode main from the zero stats -/
def runRemove (ex : List String) (dry : Bool) (cs : List Candidate) :
    RemoveStats × List (List Nat) :=
  runRemoveAux ex dry initRemoveStats cs

/-- countIncluded: the number of candidates that survive the exclusion
filter -/
def countIncluded (ex : List String) : List Candidate → Nat
  | [] => 0
  | c :: cs => (if isExcluded ex c.parts then 0 else 1) + countIncluded ex cs


theorem decodeUtf8_nil : decodeUtf8 [] = some [] := rfl

theorem decodeUtf8_cons (b : Nat) (bs : List Nat) :
    decodeUtf8 (b :: bs) =
      if b < 128 then (decodeUtf8 bs).map (fun cs => b :: cs)
      else if b < 194 then none
      else if b < 224 then
        match bs with
        | b1 :: bs1 =>
          if 128 ≤ b1 ∧ b1 < 192 then
            (decodeUtf8 bs1).map (fun cs => ((b - 192) * 64 + (b1 - 128)) :: cs)
          else none
        | [] => none
      else if b < 240 then
        match bs with
        | b1 :: b2 :: bs2 =>
          if (if b = 224 then 160 ≤ b1 ∧ b1 < 192
              else if b = 237 then 128 ≤ b1 ∧ b1 < 160
              else 128 ≤ b1 ∧ b1 < 192) ∧ (128 ≤ b2 ∧ b2 < 192) then
            (decodeUtf8 bs2).map
              (fun cs => ((b - 224) * 4096 + (b1 - 128) * 64 + (b2 - 128)) :: cs)
          else none
        | _ => none
      else if b < 245 then
        match bs with
        | b1 :: b2 :: b3 :: bs3 =>
          if (if b = 240 then 144 ≤ b1 ∧ b1 < 192
              else if b = 244 then 128 ≤ b1 ∧ b1 < 144
              else 128 ≤ b1 ∧ b1 < 192) ∧ (128 ≤ b2 ∧ b2 < 192)
              ∧ (128 ≤ b3 ∧ b3 < 192) then
            (decodeUtf8 bs3).map
              (fun cs => ((b - 240) * 262144 + (b1 - 128) * 4096
                            + (b2 - 128) * 64 + (b3 - 128)) :: cs)
          else none
        | _ => none
      else none := by
  match bs with
  | [] => rfl
  | [b1] => rfl
  | [b1, b2] => rfl
  | [b1, b2, b3] => rfl
  | b1 :: b2 :: b3 :: b4 :: bs4 => rfl

theorem encodeChar_two (b b1 : Nat) (hb : 194 ≤ b) (hb2 : b < 224)
    (h1 : 128 ≤ b1) (h2 : b1 < 192) :
    encodeChar ((b - 192) * 64 + (b1 - 128)) = [b, b1] := by
  unfold encodeChar
  rw [if_neg (by omega), if_pos (by omega)]
  simp only [List.cons.injEq, and_true]
  omega

theorem encodeChar_three (b b1 b2 : Nat) (hb : 224 ≤ b) (hb2 : b < 240)
    (h1 : if b = 224 then 160 ≤ b1 ∧ b1 < 192
          else if b = 237 then 128 ≤ b1 ∧ b1 < 160
          else 128 ≤ b1 ∧ b1 < 192)
    (h2 : 128 ≤ b2) (h3 : b2 < 192) :
    encodeChar ((b - 224) * 4096 + (b1 - 128) * 64 + (b2 - 128)) = [b, b1, b2] := by
  have hb1 : 128 ≤ b1 ∧ b1 < 192 ∧ (b = 224 → 160 ≤ b1) := by
    split at h1 <;> rename_i hh
    · omega
    · split at h1 <;> omega
  unfold encodeChar
  rw [if_neg (by omega), if_neg (by omega), if_pos (by omega)]
  simp only [List.cons.injEq, and_true]
  omega

theorem encodeChar_four (b b1 b2 b3 : Nat) (hb : 240 ≤ b) (hb2 : b < 245)
    (h1 : if b = 240 then 144 ≤ b1 ∧ b1 < 192
          else if b = 244 then 128 ≤ b1 ∧ b1 < 144
          else 128 ≤ b1 ∧ b1 < 192)
    (h2 : 128 ≤ b2) (h3 : b2 < 192) (h4 : 128 ≤ b3) (h5 : b3 < 192) :
    encodeChar ((b - 240) * 262144 + (b1 - 128) * 4096 + (b2 - 128) * 64 + (b3 - 128))
      = [b, b1, b2, b3] := by
  have hb1 : 128 ≤ b1 ∧ b1 < 192 ∧ (b = 240 → 144 ≤ b1) := by
    split at h1 <;> rename_i hh
    · omega
    · split at h1 <;> omega
  unfold encodeChar
  rw [if_neg (by omega), if_neg (by omega), if_neg (by omega)]
  simp only [List.cons.injEq, and_true]
  omega

theorem encodeUtf8_of_decodeUtf8 (bs : List Nat) :
    ∀ cs, decodeUtf8 bs = some cs → encodeUtf8 cs = bs := by
  induction bs using decodeUtf8.induct with
  | case1 =>
    intro cs h
    simp only [decodeUtf8_nil, Option.some.injEq] at h
    subst h; rfl
  | case2 b bs h1 ih =>
    intro cs h
    simp only [decodeUtf8_cons, h1, if_true, Option.map_eq_some'] at h
    obtain ⟨cs0, hd, rfl⟩ := h
    simp [encodeUtf8, encodeChar, if_pos h1, ih cs0 hd]
  | case3 b bs h1 h2 =>
    intro cs h
    simp only [decodeUtf8_cons, h1, h2, if_true, if_false] at h
    exact Option.noConfusion h
  | case4 b h1 h2 h3 b1 bs1 hc ih =>
    intro cs h
    simp only [decodeUtf8_cons, h1, h2, h3, hc, if_true, if_false, and_self, and_true, true_and,
      Option.map_eq_some'] at h
    obtain ⟨cs0, hd, rfl⟩ := h
    simp only [encodeUtf8, ih cs0 hd]
    rw [encodeChar_two b b1 (by omega) h3 hc.1 hc.2]
    rfl
  | case5 b h1 h2 h3 b1 bs1 hc =>
    intro cs h
    simp only [decodeUtf8_cons, h1, h2, h3, hc, if_true, if_false, and_self, and_true, true_and] at h
    exact Option.noConfusion h
  | case6 b h1 h2 h3 =>
    intro cs h
    simp only [decodeUtf8_cons, h1, h2, h3, if_true, if_false] at h
    exact Option.noConfusion h
  | case7 b h1 h2 h3 h4 b1 b2 bs2 hc ih =>
    intro cs h
    simp only [decodeUtf8_cons, h1, h2, h3, h4, hc, if_true, if_false, and_self, and_true, true_and,
      Option.map_eq_some'] at h
    obtain ⟨cs0, hd, rfl⟩ := h
    simp only [encodeUtf8, ih cs0 hd]
    rw [encodeChar_three b b1 b2 (by omega) h4 hc.1 hc.2.1 hc.2.2]
    rfl
  | case8 b h1 h2 h3 h4 b1 b2 bs2 hc =>
    intro cs h
    simp only [decodeUtf8_cons, h1, h2, h3, h4, hc, if_true, if_false, and_self, and_true, true_and] at h
    exact Option.noConfusion h
  | case9 b bs h1 h2 h3 h4 hshape =>
    intro cs h
    match bs, hshape with
    | [], _ =>
      simp only [decodeUtf8_cons, h1, h2, h3, h4, if_true, if_false] at h
      exact Option.noConfusion h
    | [b1], _ =>
      simp only [decodeUtf8_cons, h1, h2, h3, h4, if_true, if_false] at h
      exact Option.noConfusion h
    | b1 :: b2 :: bs2, hs => exact absurd rfl (hs b1 b2 bs2)
  | case10 b h1 h2 h3 h4 h5 b1 b2 b3 bs3 hc ih =>
    intro cs h
    simp only [decodeUtf8_cons, h1, h2, h3, h4, h5, hc, if_true, if_false, and_self, and_true, true_and,
      Option.map_eq_some'] at h
    obtain ⟨cs0, hd, rfl⟩ := h
    simp only [encodeUtf8, ih cs0 hd]
    rw [encodeChar_four b b1 b2 b3 (by omega) h5 hc.1 hc.2.1.1 hc.2.1.2
      hc.2.2.1 hc.2.2.2]
    rfl
  | case11 b h1 h2 h3 h4 h5 b1 b2 b3 bs3 hc =>
    intro cs h
    simp only [decodeUtf8_cons, h1, h2, h3, h4, h5, hc, if_true, if_false, and_self, and_true, true_and] at h
    exact Option.noConfusion h
  | case12 b bs h1 h2 h3 h4 h5 hshape =>
    intro cs h
    match bs, hshape with
    | [], _ =>
      simp only [decodeUtf8_cons, h1, h2, h3, h4, h5, if_true, if_false] at h
      exact Option.noConfusion h
    | [b1], _ =>
      simp only [decodeUtf8_cons, h1, h2, h3, h4, h5, if_true, if_false] at h
      exact Option.noConfusion h
    | [b1, b2], _ =>
      simp only [decodeUtf8_cons, h1, h2, h3, h4, h5, if_true, if_false] at h
      exact Option.noConfusion h
    | b1 :: b2 :: b3 :: bs3, hs => exact absurd rfl (hs b1 b2 b3 bs3)
  | case13 b bs h1 h2 h3 h4 h5 =>
    intro cs h
    simp only [decodeUtf8_cons, h1, h2, h3, h4, h5, if_true, if_false] at h
    exact Option.noConfusion h

theorem mem13_encodeChar (c : Nat) : 13 ∈ encodeChar c ↔ c = 13 := by
  unfold encodeChar
  split_ifs with g1 g2 g3
  · simp only [List.mem_singleton]
    omega
  · simp only [List.mem_cons, List.mem_singleton, List.not_mem_nil, or_false]
    omega
  · simp only [List.mem_cons, List.mem_singleton, List.not_mem_nil, or_false]
    omega
  · simp only [List.mem_cons, List.mem_singleton, List.not_mem_nil, or_false]
    omega

theorem mem13_encodeUtf8 (cs : List Nat) : 13 ∈ encodeUtf8 cs ↔ 13 ∈ cs := by
  induction cs with
  | nil => simp [encodeUtf8]
  | cons c rest ih =>
    simp only [encodeUtf8, List.mem_append, List.mem_cons, ih, mem13_encodeChar]
    constructor
    · rintro (h | h)
      · exact Or.inl h.symm
      · exact Or.inr h
    · rintro (h | h)
      · exact Or.inl h.symm
      · exact Or.inr h

theorem translateNewlines_cons_ne (c : Nat) (l : List Nat) (hc : c ≠ 13) :
    translateNewlines (c :: l) = c :: translateNewlines l := by
  cases l with
  | nil => simp [translateNewlines, hc]
  | cons c2 rest => simp [translateNewlines, hc]

theorem translateNewlines_eq_self (l : List Nat) (h : 13 ∉ l) :
    translateNewlines l = l := by
  induction l using translateNewlines.induct with
  | case1 => rfl
  | case2 => simp at h
  | case3 c hc => simp [translateNewlines, hc]
  | case4 rest ih => simp at h
  | case5 c2 rest hne ih => simp at h
  | case6 c c2 rest hne ih =>
    simp only [List.mem_cons, not_or] at h
    rw [translateNewlines_cons_ne c (c2 :: rest) (fun hx => h.1 hx.symm),
      ih (by simp only [List.mem_cons, not_or]; exact ⟨h.2.1, h.2.2⟩)]

theorem decodeUtf8Sig_bom_append (bs : List Nat) :
    decodeUtf8Sig (BOM_UTF8 ++ bs) = decodeUtf8 bs := by
  simp [decodeUtf8Sig, BOM_UTF8]

theorem has_utf8_bom_mkFile (bs : List Nat) :
    has_utf8_bom (mkFile bs) = (bs.take 3 == BOM_UTF8) := rfl

theorem is_text_file_mkFile (bs : List Nat) :
    is_text_file (mkFile bs) = !((bs.take 1024).contains 0) := rfl

theorem is_text_file_mkFile_of_not_mem (bs : List Nat) (h : (0:Nat) ∉ bs.take 1024) :
    is_text_file (mkFile bs) = true := by
  rw [is_text_file_mkFile]
  simpa using h

theorem has_utf8_bom_mkFile_of_ne (bs : List Nat) (h : bs.take 3 ≠ BOM_UTF8) :
    has_utf8_bom (mkFile bs) = false := by
  rw [has_utf8_bom_mkFile]
  simpa using h

/-- C4: the BOM prober returns true exactly when the first 3 bytes of the
file equal EF BB BF; a file shorter than 3 bytes yields false, and an
I/O failure while opening or reading yields false instead of an
exception. -/
theorem c4_bom_prober_spec :
    (∀ bs : List Nat, has_utf8_bom (mkFile bs) = true ↔ bs.take 3 = BOM_UTF8)
    ∧ (∀ bs : List Nat, bs.length < 3 → has_utf8_bom (mkFile bs) = false)
    ∧ (∀ f : FsFile, f.openFails = true → has_utf8_bom f = false) := by
  refine ⟨fun bs => ?_, fun bs h => ?_, fun f h => ?_⟩
  · rw [has_utf8_bom_mkFile]
    exact beq_iff_eq
  · rw [has_utf8_bom_mkFile, List.take_of_length_le (by omega)]
    have : bs ≠ BOM_UTF8 := by
      intro hx
      rw [hx] at h
      simp [BOM_UTF8] at h
    simpa using this
  · unfold has_utf8_bom
    rw [h]
    rfl

/-- C4 witness: the prober evaluated at a file with a BOM prefix, at a
2-byte file, and at a file whose open raises. -/
theorem c4_bom_prober_spec_witness :
    (has_utf8_bom (mkFile [239, 187, 191, 65]) = true ↔ [239, 187, 191, 65].take 3 = BOM_UTF8)
    ∧ ([1, 2].length < 3 ∧ has_utf8_bom (mkFile [1, 2]) = false)
    ∧ has_utf8_bom
        { content := [239, 187, 191], openFails := true, readFails := false,
          writeFails := false, leftoverBytes := [] } = false :=
  ⟨c4_bom_prober_spec.1 [239, 187, 191, 65],
   ⟨by decide, c4_bom_prober_spec.2.1 [1, 2] (by decide)⟩,
   c4_bom_prober_spec.2.2 _ rfl⟩

/-- C5: a file already beginning with the 3-byte BOM is left byte-for-byte
unchanged by the Add-BOM procedure, in both dry and real mode, and the
outcome is AlreadyHasBom. -/
theorem c5_add_already_has_bom (bs : List Nat) (dry : Bool)
    (h : bs.take 3 = BOM_UTF8) :
    add_bom_to_file (mkFile bs) dry = ((true, .already_has_bom), bs) := by
  unfold add_bom_to_file
  rw [has_utf8_bom_mkFile]
  simp [h, mkFile]

/-- C5 witness: Add-BOM on the 3-byte file EF BB BF reports AlreadyHasBom
and leaves the bytes alone. -/
theorem c5_add_already_has_bom_witness :
    ([239, 187, 191].take 3 = BOM_UTF8)
    ∧ add_bom_to_file (mkFile [239, 187, 191]) false
        = ((true, .already_has_bom), [239, 187, 191]) :=
  ⟨by decide, c5_add_already_has_bom [239, 187, 191] false (by decide)⟩

/-- C6: a file without a BOM, with no zero byte in its first 1024 bytes,
whose contents do not decode as UTF-8 is reported NotUtf8 and its bytes
are untouched. -/
theorem c6_add_not_utf8 (bs : List Nat) (dry : Bool)
    (hb : bs.take 3 ≠ BOM_UTF8)
    (hz : (0:Nat) ∉ bs.take 1024)
    (hd : decodeUtf8 bs = none) :
    add_bom_to_file (mkFile bs) dry = ((false, .not_utf8), bs) := by
  unfold add_bom_to_file
  rw [has_utf8_bom_mkFile_of_ne bs hb, is_text_file_mkFile_of_not_mem bs hz]
  simp [mkFile, hd]

/-- C6 witness: a file holding the single byte FF (no BOM, no zero byte,
not UTF-8) is reported NotUtf8 with bytes unchanged. -/
theorem c6_add_not_utf8_witness :
    ([255].take 3 ≠ BOM_UTF8)
    ∧ ((0:Nat) ∉ [255].take 1024)
    ∧ decodeUtf8 [255] = none
    ∧ add_bom_to_file (mkFile [255]) false = ((false, .not_utf8), [255]) :=
  ⟨by decide, by decide, by decide,
   c6_add_not_utf8 [255] false (by decide) (by decide) (by decide)⟩

/-- C9: the empty file gains exactly the 3 BOM bytes under a real Add-BOM
run and the outcome is BomAdded: the probe on fewer than 3 bytes is
false, the classifier accepts the empty prefix, and the empty byte
string decodes to the empty text. -/
theorem c9_add_empty_file :
    add_bom_to_file (mkFile []) false = ((true, .bom_added), BOM_UTF8) := by decide

theorem mkFile_content (bs : List Nat) : (mkFile bs).content = bs := rfl

theorem mkFile_readFails (bs : List Nat) : (mkFile bs).readFails = false := rfl

theorem mkFile_writeFails (bs : List Nat) : (mkFile bs).writeFails = false := rfl


/-- C1: refuted as stated: a dry run does leave every file's bytes
unchanged, but the modification counters do not match a real run.  The
per-file procedures return the tag dry_run in dry-run mode and the
counter-update chain of main has no branch for that tag, so the
dry-run bom_added (and bom_removed) counters stay 0 while a real run
on the same tree counts 1 for the file below; the dry-run summary line
of main, which prints bom_added as the number of files that would
change, therefore contradicts the code. -/
theorem c1_dry_run_counter_divergence :
    (runAdd [] true [⟨["a.txt"], mkFile [104, 101, 108, 108, 111]⟩]).2
        = [[104, 101, 108, 108, 111]]
    ∧ (runAdd [] true [⟨["a.txt"], mkFile [104, 101, 108, 108, 111]⟩]).1.bom_added = 0
    ∧ (runAdd [] false [⟨["a.txt"], mkFile [104, 101, 108, 108, 111]⟩]).1.bom_added = 1
    ∧ (runRemove [] true [⟨["b.txt"], mkFile (BOM_UTF8 ++ [104, 105])⟩]).2
        = [BOM_UTF8 ++ [104, 105]]
    ∧ (runRemove [] true [⟨["b.txt"], mkFile (BOM_UTF8 ++ [104, 105])⟩]).1.bom_removed = 0
    ∧ (runRemove [] false [⟨["b.txt"], mkFile (BOM_UTF8 ++ [104, 105])⟩]).1.bom_removed = 1 := by
  decide

/-- C3 counterexample: a file holding the single zero byte has a zero
byte in its first 1024 bytes, yet the Remove-BOM procedure reports
NoBom, not NotTextFile, because the BOM probe runs first; dually a
BOM-prefixed file with a zero byte gets AlreadyHasBom from Add-BOM. -/
theorem c3_zero_byte_cex :
    ((0:Nat) ∈ ([0] : List Nat).take 1024)
    ∧ (remove_bom_from_file (mkFile [0]) false).1.2 = Outcome.no_bom
    ∧ Outcome.no_bom ≠ Outcome.not_text_file
    ∧ ((0:Nat) ∈ (BOM_UTF8 ++ [0]).take 1024)
    ∧ (add_bom_to_file (mkFile (BOM_UTF8 ++ [0])) false).1.2 = Outcome.already_has_bom
    ∧ Outcome.already_has_bom ≠ Outcome.not_text_file := by
  decide

/-- C3 amended: a file with a zero byte in its first 1024 bytes is left
byte-for-byte unchanged by both procedures; Add-BOM reports
NotTextFile when the file does not begin with the BOM (else
AlreadyHasBom), and Remove-BOM reports NotTextFile when the file does
begin with the BOM (else NoBom). -/
theorem c3_zero_byte_amended (bs : List Nat) (dry : Bool)
    (h0 : (0:Nat) ∈ bs.take 1024) :
    (add_bom_to_file (mkFile bs) dry).2 = bs
    ∧ (remove_bom_from_file (mkFile bs) dry).2 = bs
    ∧ (bs.take 3 ≠ BOM_UTF8 → (add_bom_to_file (mkFile bs) dry).1.2 = .not_text_file)
    ∧ (bs.take 3 = BOM_UTF8 → (remove_bom_from_file (mkFile bs) dry).1.2 = .not_text_file) := by
  have htext : is_text_file (mkFile bs) = false := by
    rw [is_text_file_mkFile]
    simpa using h0
  by_cases hbom : bs.take 3 = BOM_UTF8
  · have hprob : has_utf8_bom (mkFile bs) = true := by
      rw [has_utf8_bom_mkFile]
      simp [hbom]
    refine ⟨?_, ?_, fun hx => absurd hbom hx, fun _ => ?_⟩
    · unfold add_bom_to_file
      rw [hprob]
      simp [mkFile_content]
    · unfold remove_bom_from_file
      rw [hprob, htext]
      simp [mkFile_content]
    · unfold remove_bom_from_file
      rw [hprob, htext]
      simp
  · have hprob : has_utf8_bom (mkFile bs) = false := has_utf8_bom_mkFile_of_ne bs hbom
    refine ⟨?_, ?_, fun _ => ?_, fun hx => absurd hx hbom⟩
    · unfold add_bom_to_file
      rw [hprob, htext]
      simp [mkFile_content]
    · unfold remove_bom_from_file
      rw [hprob]
      simp [mkFile_content]
    · unfold add_bom_to_file
      rw [hprob, htext]
      simp

/-- C3 amended witness: evaluated at the one-byte zero file (no BOM) and
at a BOM-prefixed file with a zero byte. -/
theorem c3_zero_byte_amended_witness :
    ((0:Nat) ∈ ([0] : List Nat).take 1024)
    ∧ (add_bom_to_file (mkFile [0]) false).2 = [0]
    ∧ (add_bom_to_file (mkFile [0]) false).1.2 = .not_text_file
    ∧ (remove_bom_from_file (mkFile (BOM_UTF8 ++ [0])) false).1.2 = .not_text_file :=
  ⟨by decide,
   (c3_zero_byte_amended [0] false (by decide)).1,
   (c3_zero_byte_amended [0] false (by decide)).2.2.1 (by decide),
   (c3_zero_byte_amended (BOM_UTF8 ++ [0]) false (by decide)).2.2.2 (by decide)⟩

theorem decodeUtf8_bom_append (l cs : List Nat) (h : decodeUtf8 l = some cs) :
    decodeUtf8 (BOM_UTF8 ++ l) = some (65279 :: cs) := by
  show decodeUtf8 (239 :: 187 :: 191 :: l) = some (65279 :: cs)
  rw [decodeUtf8_cons]
  norm_num [h]

/-- C10 counterexample: the byte string EF BB BF EF BB BF 00 begins with
two BOMs and its tail after them, the single zero byte, is valid
UTF-8; yet Remove-BOM reports NotTextFile (the zero byte trips the
classifier), not BomRemoved. -/
theorem c10_double_bom_cex :
    decodeUtf8 [0] = some [0]
    ∧ (remove_bom_from_file (mkFile (BOM_UTF8 ++ BOM_UTF8 ++ [0])) false).1.2
        ≠ Outcome.bom_removed
    ∧ (remove_bom_from_file (mkFile (BOM_UTF8 ++ BOM_UTF8 ++ [0])) false).1.2
        = Outcome.not_text_file := by
  decide

/-- C10 amended: for a file whose bytes are two BOMs followed by valid
UTF-8, with no zero byte among the first 1024 bytes, one real
Remove-BOM run reports BomRemoved and the resulting bytes still begin
with EF BB BF, so one pass does not make the file BOM-free. -/
theorem c10_double_bom_amended (rest cs : List Nat)
    (hd : decodeUtf8 rest = some cs)
    (hz : (0:Nat) ∉ (BOM_UTF8 ++ BOM_UTF8 ++ rest).take 1024) :
    (remove_bom_from_file (mkFile (BOM_UTF8 ++ BOM_UTF8 ++ rest)) false).1.2
        = .bom_removed
    ∧ ((remove_bom_from_file (mkFile (BOM_UTF8 ++ BOM_UTF8 ++ rest)) false).2).take 3
        = BOM_UTF8 := by
  have hprob : has_utf8_bom (mkFile (BOM_UTF8 ++ BOM_UTF8 ++ rest)) = true := by
    rw [has_utf8_bom_mkFile]
    simp [BOM_UTF8]
  have htext := is_text_file_mkFile_of_not_mem _ hz
  have hsig : decodeUtf8Sig (BOM_UTF8 ++ BOM_UTF8 ++ rest) = some (65279 :: cs) := by
    rw [List.append_assoc, decodeUtf8Sig_bom_append]
    exact decodeUtf8_bom_append rest cs hd
  have htr : translateNewlines (65279 :: cs) = 65279 :: translateNewlines cs :=
    translateNewlines_cons_ne _ _ (by norm_num)
  unfold remove_bom_from_file
  rw [hprob, htext, mkFile_readFails, mkFile_writeFails, mkFile_content, hsig]
  norm_num [htr, encodeUtf8, encodeChar, BOM_UTF8]

/-- C10 amended witness: evaluated at the tail byte 61 (lower-case a). -/
theorem c10_double_bom_amended_witness :
    decodeUtf8 [97] = some [97]
    ∧ ((0:Nat) ∉ (BOM_UTF8 ++ BOM_UTF8 ++ [97]).take 1024)
    ∧ (remove_bom_from_file (mkFile (BOM_UTF8 ++ BOM_UTF8 ++ [97])) false).1.2
        = .bom_removed
    ∧ ((remove_bom_from_file (mkFile (BOM_UTF8 ++ BOM_UTF8 ++ [97])) false).2).take 3
        = BOM_UTF8 :=
  ⟨by decide, by decide,
   (c10_double_bom_amended [97] [97] (by decide) (by decide)).1,
   (c10_double_bom_amended [97] [97] (by decide) (by decide)).2⟩

/-- C2 counterexample: the two-byte file 61 0D (letter a then carriage
return) has no BOM, no zero byte and is valid UTF-8, yet Add-BOM then
Remove-BOM turns it into 61 0A: Python text-mode reads translate the
lone CR to LF, so the original bytes are not restored. -/
theorem c2_roundtrip_cr_cex :
    (([97, 13] : List Nat).take 3 ≠ BOM_UTF8)
    ∧ ((0:Nat) ∉ ([97, 13] : List Nat).take 1024)
    ∧ decodeUtf8 [97, 13] = some [97, 13]
    ∧ (remove_bom_from_file (mkFile ((add_bom_to_file (mkFile [97, 13]) false).2)) false).2
        = [97, 10]
    ∧ ([97, 10] : List Nat) ≠ [97, 13] := by
  decide

/-- C2 amended: for a file with no BOM, no zero byte in its first 1024
bytes, valid UTF-8 contents, and no carriage-return byte (0x0D),
running Add-BOM then Remove-BOM (both real) restores the original
bytes exactly. -/
theorem c2_roundtrip_amended (bs cs : List Nat)
    (hb : bs.take 3 ≠ BOM_UTF8)
    (hz : (0:Nat) ∉ bs.take 1024)
    (hd : decodeUtf8 bs = some cs)
    (hcr : (13:Nat) ∉ bs) :
    (remove_bom_from_file (mkFile ((add_bom_to_file (mkFile bs) false).2)) false).2 = bs := by
  have he : encodeUtf8 cs = bs := encodeUtf8_of_decodeUtf8 bs cs hd
  have hcr2 : (13:Nat) ∉ cs := fun hm => hcr (he ▸ (mem13_encodeUtf8 cs).2 hm)
  have htr : translateNewlines cs = cs := translateNewlines_eq_self cs hcr2
  have hadd : (add_bom_to_file (mkFile bs) false).2 = BOM_UTF8 ++ bs := by
    unfold add_bom_to_file
    rw [has_utf8_bom_mkFile_of_ne bs hb, is_text_file_mkFile_of_not_mem bs hz,
      mkFile_readFails, mkFile_writeFails, mkFile_content, hd]
    norm_num [htr, he]
  rw [hadd]
  have hprob : has_utf8_bom (mkFile (BOM_UTF8 ++ bs)) = true := by
    rw [has_utf8_bom_mkFile]
    simp [BOM_UTF8]
  have hz2 : (0:Nat) ∉ (BOM_UTF8 ++ bs).take 1024 := by
    show (0:Nat) ∉ (239 :: 187 :: 191 :: bs).take 1024
    rw [show (239 :: 187 :: 191 :: bs).take 1024
          = 239 :: 187 :: 191 :: bs.take 1021 from rfl]
    intro hm
    rcases List.mem_cons.1 hm with h9 | hm
    · exact absurd h9 (by norm_num)
    rcases List.mem_cons.1 hm with h9 | hm
    · exact absurd h9 (by norm_num)
    rcases List.mem_cons.1 hm with h9 | hm
    · exact absurd h9 (by norm_num)
    apply hz
    rw [show (1024:Nat) = 1021 + 3 from rfl, List.take_add]
    exact List.mem_append_left _ hm
  have htext2 := is_text_file_mkFile_of_not_mem _ hz2
  have hsig : decodeUtf8Sig (BOM_UTF8 ++ bs) = some cs := by
    rw [decodeUtf8Sig_bom_append]
    exact hd
  unfold remove_bom_from_file
  rw [hprob, htext2, mkFile_readFails, mkFile_writeFails, mkFile_content, hsig]
  norm_num [htr, he]

/-- C2 amended witness: evaluated at the 5-byte ASCII file spelling
hello. -/
theorem c2_roundtrip_amended_witness :
    (([104, 101, 108, 108, 111] : List Nat).take 3 ≠ BOM_UTF8)
    ∧ ((0:Nat) ∉ ([104, 101, 108, 108, 111] : List Nat).take 1024)
    ∧ decodeUtf8 [104, 101, 108, 108, 111] = some [104, 101, 108, 108, 111]
    ∧ ((13:Nat) ∉ ([104, 101, 108, 108, 111] : List Nat))
    ∧ (remove_bom_from_file
        (mkFile ((add_bom_to_file (mkFile [104, 101, 108, 108, 111]) false).2)) false).2
        = [104, 101, 108, 108, 111] :=
  ⟨by decide, by decide, by decide, by decide,
   c2_roundtrip_amended [104, 101, 108, 108, 111] [104, 101, 108, 108, 111]
     (by decide) (by decide) (by decide) (by decide)⟩

/-- C7: a candidate with an excluded path component contributes nothing to
a run: the statistics (including total_found / total_checked) are those
of the remaining candidates and its bytes stay untouched, in both modes
and regardless of the dry-run flag. -/
theorem c7_excluded_skipped (ex : List String) (dry : Bool) (c : Candidate)
    (cs : List Candidate) (st : AddStats) (st2 : RemoveStats)
    (h : isExcluded ex c.parts = true) :
    runAddAux ex dry st (c :: cs)
        = ((runAddAux ex dry st cs).1, c.file.content :: (runAddAux ex dry st cs).2)
    ∧ runRemoveAux ex dry st2 (c :: cs)
        = ((runRemoveAux ex dry st2 cs).1, c.file.content :: (runRemoveAux ex dry st2 cs).2) := by
  constructor
  · simp [runAddAux, h]
  · simp [runRemoveAux, h]

/-- C7 witness: a file under node_modules that matches the extension
filter is skipped whole: the run equals the run on the other
candidates with its bytes passed through. -/
theorem c7_excluded_skipped_witness :
    isExcluded ["node_modules"] ["node_modules", "a.h"] = true
    ∧ runAddAux ["node_modules"] false initAddStats
        [⟨["node_modules", "a.h"], mkFile [104]⟩]
        = ((runAddAux ["node_modules"] false initAddStats []).1,
            [104] :: (runAddAux ["node_modules"] false initAddStats []).2)
    ∧ runRemoveAux ["node_modules"] false initRemoveStats
        [⟨["node_modules", "a.h"], mkFile [104]⟩]
        = ((runRemoveAux ["node_modules"] false initRemoveStats []).1,
            [104] :: (runRemoveAux ["node_modules"] false initRemoveStats []).2) :=
  ⟨by decide,
   (c7_excluded_skipped ["node_modules"] false ⟨["node_modules", "a.h"], mkFile [104]⟩
      [] initAddStats initRemoveStats (by decide)).1,
   (c7_excluded_skipped ["node_modules"] false ⟨["node_modules", "a.h"], mkFile [104]⟩
      [] initAddStats initRemoveStats (by decide)).2⟩

/-- allOutcomes: the eight defined outcome tags -/
def allOutcomes : List Outcome :=
  [.bom_added, .already_has_bom, .not_text_file, .not_utf8, .dry_run,
   .error, .bom_removed, .no_bom]

theorem bumpAdd_total_found (st : AddStats) (oc : Outcome) :
    (bumpAdd st oc).total_found = st.total_found := by
  cases oc <;> rfl

theorem bumpRemove_total_checked (st : RemoveStats) (oc : Outcome) :
    (bumpRemove st oc).total_checked = st.total_checked := by
  cases oc <;> rfl

/-- C8: the per-file procedures always return one of the defined outcome
tags for every file, including files whose opens, reads or writes
raise, and the walkers always complete their enumeration: the final
total_found / total_checked counter accounts for every non-excluded
candidate, so the summary is reached on every input tree. -/
theorem c8_walker_total :
    (∀ (f : FsFile) (d : Bool),
        (add_bom_to_file f d).1.2 ∈ allOutcomes
        ∧ (remove_bom_from_file f d).1.2 ∈ allOutcomes)
    ∧ (∀ (ex : List String) (d : Bool) (st : AddStats) (files : List Candidate),
        (runAddAux ex d st files).1.total_found
          = st.total_found + countIncluded ex files)
    ∧ (∀ (ex : List String) (d : Bool) (st : RemoveStats) (files : List Candidate),
        (runRemoveAux ex d st files).1.total_checked
          = st.total_checked + countIncluded ex files) := by
  refine ⟨fun f d => ⟨?_, ?_⟩, fun ex d st files => ?_, fun ex d st files => ?_⟩
  · cases h : (add_bom_to_file f d).1.2 <;> simp [allOutcomes]
  · cases h : (remove_bom_from_file f d).1.2 <;> simp [allOutcomes]
  · induction files generalizing st with
    | nil => simp [runAddAux, countIncluded]
    | cons c cs ih =>
      by_cases h : isExcluded ex c.parts
      · simp [runAddAux, h, countIncluded, ih]
      · simp only [runAddAux, h, countIncluded, if_false, Bool.false_eq_true, ite_false]
        rw [ih]
        rw [bumpAdd_total_found]
        simp only []
        omega
  · induction files generalizing st with
    | nil => simp [runRemoveAux, countIncluded]
    | cons c cs ih =>
      by_cases h : isExcluded ex c.parts
      · simp [runRemoveAux, h, countIncluded, ih]
      · simp only [runRemoveAux, h, countIncluded, if_false, Bool.false_eq_true, ite_false]
        rw [ih]
        rw [bumpRemove_total_checked]
        simp only []
        omega
